import Mathlib

/-!
Verification development for the qprompt library (src/lib/qprompt.py).

The Python source is shallowly embedded: Python values that flow through the
prompt engine are modelled by `Val` (the claims only exercise `int` and `str`
values), validation-rule entries of the `vld` list by `Rule` (literal value,
the `int`/`str` type tags, or a callable predicate), Python exceptions by
`PyErr`, and the process state (sys.argv, sys.stdin and the real terminal
input) by `PyState`.  Scripted input is an explicit `List String`; every
loop of the source is embedded as structural recursion on the remaining
input (plus a fuel argument where one loop performs several reads).
-/

/-- A Python value handled by the prompt engine (the claims only exercise
`int` and `str` values). -/
inductive Val where
  | vint : Int → Val
  | vstr : String → Val
deriving DecidableEq, Repr, BEq

/-- A Python exception, as far as the embedded code can raise one. -/
inductive PyErr where
  | eofError    -- input() at end of input
  | valueError  -- list.remove on a missing element
  | indexError  -- indexing an empty list / [..][0] on an empty comprehension
  | typeError   -- `x not in None`
  | fmtError    -- an exception raised by a user-supplied formatter
deriving DecidableEq, Repr, BEq

/-- An entry of the `vld` list of `ask` (qprompt.py:334).  Python mixes
literal values, type objects and callables in one list; callables are
modelled as functions on the current candidate (`none` models a candidate
that is Python `None`), returning `none` when the predicate raises.
The string names the callable (`__name__`, used by the help printer). -/
inductive Rule where
  | lit : Val → Rule
  | tint : Rule
  | tstr : Rule
  | pred : String → (Option Val → Option Bool) → Rule

/-- Python `str()` of an embedded value. -/
def pyStr : Val → String
  | Val.vint n => toString n
  | Val.vstr s => s

/-- Python truthiness of an embedded value. -/
def pyTruthy : Val → Bool
  | Val.vint n => n != 0
  | Val.vstr s => s != ""

/-- Python `int(s)` on a string, `none` when it raises (qprompt.py:324-331
`cast` swallows the exception). -/
def pyStrToInt (s : String) : Option Int := s.toInt?

/-- `cast(ans, int)` (qprompt.py:324-331): `none` models a raised-and-caught
exception, hence `cast` returning `None`.  `int(None)` raises. -/
def castInt : Option Val → Option Val
  | none => none
  | some (Val.vint n) => some (Val.vint n)
  | some (Val.vstr s) => (pyStrToInt s).map Val.vint

/-- `cast(ans, str)`: `str()` never fails; `str(None)` is the string
`"None"`. -/
def castStr : Option Val → Option Val
  | none => some (Val.vstr ("None"))
  | some v => some (Val.vstr (pyStr v))

/-- Python `x in vld` where `x` is a value and `vld` the rule list:
`==` against a type object or a callable is `False`, so only literal
entries can match. -/
def litMem (v : Val) (l : List Rule) : Bool :=
  l.any (fun r => match r with | Rule.lit w => w == v | _ => false)

/-- `ans in vld` for the current candidate (Python `None in vld` is `False`
because the rule list never holds `None` here). -/
def valInVld (ans : Option Val) (vld : List Rule) : Bool :=
  match ans with
  | none => false
  | some a => litMem a vld

/-- The `for v in vld: ... else: ans = None` acceptance loop of `ask`
(qprompt.py:409-422).  The first argument is the whole rule list (the
source checks `ans in vld` against the whole list), the last the suffix
still to be tried.  A type tag whose `cast` fails falls through to the
callable branch, but there `v(ans)` raises exactly when `cast` returned
`None`, and the exception is swallowed — so the tag simply fails.
Returns the candidate after the loop; `none` means rejected (retry). -/
def validateLoop (vld : List Rule) (ans : Option Val) : List Rule → Option Val
  | [] => none
  | r :: rest =>
    match r with
    | Rule.tint =>
      match castInt ans with
      | some c => some c
      | none => validateLoop vld ans rest
    | Rule.tstr =>
      match castStr ans with
      | some c => some c
      | none => validateLoop vld ans rest
    | Rule.pred _ p =>
      match p ans with
      | some true => ans
      | _ => validateLoop vld ans rest
    | Rule.lit _ => if valInVld ans vld then ans else validateLoop vld ans rest

/-- Python `==` on rule-list entries: values compare by value, type objects
by identity, distinct callables are never equal. -/
def ruleBEq : Rule → Rule → Bool
  | Rule.lit v, Rule.lit w => v == w
  | Rule.tint, Rule.tint => true
  | Rule.tstr, Rule.tstr => true
  | _, _ => false

/-- `list(set(l))` (qprompt.py:382): duplicates removed.  CPython's set
iteration order is hash-dependent; it is modelled as first-occurrence
order.  Every claim proved below is insensitive to this order. -/
def pyDedup (l : List Rule) : List Rule :=
  go [] l
where
  go (seen : List Rule) : List Rule → List Rule
    | [] => []
    | r :: rest =>
      if seen.any (ruleBEq r) then go seen rest
      else r :: go (r :: seen) rest

/-- Lexicographic code-point comparison on character lists (Python string
ordering). -/
def charListLe : List Char → List Char → Bool
  | [], _ => true
  | _ :: _, [] => false
  | a :: as, b :: bs =>
    if a.toNat < b.toNat then true
    else if b.toNat < a.toNat then false
    else charListLe as bs

/-- Python `<=` on strings: lexicographic by code point. -/
def pyStrLe (a b : String) : Bool := charListLe a.data b.data

/-- Comparison used by `sorted(vld)`: only lists whose entries are all
`int` literals or all `str` literals are mutually comparable in Python 3. -/
def ruleLe (a b : Rule) : Bool :=
  match a, b with
  | Rule.lit (Val.vint m), Rule.lit (Val.vint n) => m ≤ n
  | Rule.lit (Val.vstr s), Rule.lit (Val.vstr t) => pyStrLe s t
  | _, _ => true

/-- Whether `sorted(vld)` succeeds (all-int or all-str literals);
otherwise it raises `TypeError`, which qprompt.py:386-387 swallows,
keeping the unsorted list. -/
def vldSortable (l : List Rule) : Bool :=
  (l.all fun r => match r with | Rule.lit (Val.vint _) => true | _ => false) ||
  (l.all fun r => match r with | Rule.lit (Val.vstr _) => true | _ => false)

/-- `try: vld = sorted(vld) except: pass` (qprompt.py:386-387). -/
def pySort (l : List Rule) : List Rule :=
  if vldSortable l then List.insertionSort (fun a b => ruleLe a b = true) l else l

/-- A user-supplied formatter (`fmt`): it can raise (`Except.error`),
return Python `None` (`ok none`, e.g. a failed `cast`) or return a value.
Formatters are modelled as acting on embedded values; on the type-tag and
callable entries of the rule list (which Python also feeds through `fmt`
at qprompt.py:382) the formatters of this library either return the
object itself or a falsy value, so those entries pass through unchanged. -/
def Fmt : Type := Val → Except PyErr (Option Val)

/-- The identity lambda installed when no formatter is given
(qprompt.py:372-373). -/
def idFmt : Fmt := fun v => Except.ok (some v)

/-- One element of the sanitize comprehension
`fmt(v) if fmt(v) else v` (qprompt.py:382). -/
def sanElem (fmt : Fmt) : Rule → Except PyErr Rule
  | Rule.lit v =>
    match fmt v with
    | Except.error e => Except.error e
    | Except.ok none => Except.ok (Rule.lit v)
    | Except.ok (some w) => Except.ok (if pyTruthy w then Rule.lit w else Rule.lit v)
  | r => Except.ok r

/-- The `if vld:` sanitize block of `ask` (qprompt.py:380-387): format each
entry, dedup, append `""` when blank input is allowed and absent, then
sort when comparable. -/
def sanitizeVld (fmt : Fmt) (blk : Bool) (vld : List Rule) : Except PyErr (List Rule) :=
  if vld.isEmpty then Except.ok vld
  else do
    let l1 ← vld.mapM (sanElem fmt)
    let l2 := pyDedup l1
    let l3 := if blk && !(litMem (Val.vstr ("")) l2) then l2 ++ [Rule.lit (Val.vstr (""))] else l2
    Except.ok (pySort l3)

/-- The literal values of the rule list, in order
(`[v for v in vld if not callable(v)]`, qprompt.py:348; type objects are
callable and so excluded). -/
def litsOf (vld : List Rule) : List Val :=
  vld.filterMap (fun r => match r with | Rule.lit v => some v | _ => none)

/-- `lst.remove("")` (qprompt.py:350): drop the first `""`; `none` when it
is absent, in which case Python raises `ValueError`. -/
def removeFirstBlank : List Val → Option (List Val)
  | [] => none
  | v :: rest =>
    if v == Val.vstr ("") then some rest
    else (removeFirstBlank rest).map (fun r => v :: r)

/-- The hint strings the help printer appends for the callable entries of
the rule list (qprompt.py:351-361). -/
def helpHints (vld : List Rule) : List String :=
  vld.filterMap (fun r => match r with
    | Rule.tint => some ("<int>")
    | Rule.tstr => some ("<str>")
    | Rule.pred nm _ => some ("(" ++ nm ++ ")")
    | Rule.lit _ => none)

/-- `print_help()` (qprompt.py:347-367): the lines it echoes, or the
`ValueError` that `lst.remove("")` raises when blank input is allowed but
`""` is not among the literal rules. -/
def printHelp (vld : List Rule) (blk : Bool) (hlp : String) : Except PyErr (List String) :=
  let lst := litsOf vld
  match (if blk then removeFirstBlank lst else some lst) with
  | none => Except.error PyErr.valueError
  | some lst1 =>
    let strs := lst1.map pyStr ++ helpHints vld
    let l1 := if strs.isEmpty then [] else ["[HELP] Valid input: " ++ String.intercalate (" | ") strs]
    let l2 := if hlp = "" then [] else ["[HELP] Extra notes: " ++ hlp]
    let l3 := if blk then ["[HELP] Input may be blank."] else []
    Except.ok (l1 ++ l2 ++ l3)

/-- The `while ans is None` read loop of `ask` (qprompt.py:389-423) over a
scripted input list.  Returns (result, echoed help lines, remaining
input).  End of input makes `input()` raise `EOFError`. -/
def askLoop (fmt : Fmt) (dft : Option Val) (vld : List Rule) (blk : Bool) (hlp : String) :
    List String → Except PyErr (Option Val) × List String × List String
  | [] => (Except.error PyErr.eofError, [], [])
  | line :: rest =>
    if line = "?" then
      match printHelp vld blk hlp with
      | Except.error e => (Except.error e, [], rest)
      | Except.ok hl =>
        let t := askLoop fmt dft vld blk hlp rest
        (t.1, hl ++ t.2.1, t.2.2)
    else if line = "" && dft.isSome then
      -- `ans = dft if not fmt else fmt(dft); break` (qprompt.py:398-400):
      -- the default is re-formatted and returned without validation.
      match fmt (dft.getD (Val.vstr (""))) with
      | Except.error e => (Except.error e, [], rest)
      | Except.ok r => (Except.ok r, [], rest)
    else if line = "" && !(litMem (Val.vstr ("")) vld) then
      -- blank, no default, "" not a valid literal: reject, re-prompt.
      askLoop fmt dft vld blk hlp rest
    else
      -- `try: ans = fmt(ans) except: ans = None`, then the acceptance loop.
      let ansF : Option Val := match fmt (Val.vstr line) with
        | Except.error _ => none
        | Except.ok r => r
      let ansV : Option Val := if vld.isEmpty then ansF else validateLoop vld ansF vld
      match ansV with
      | none => askLoop fmt dft vld blk hlp rest
      | some a => (Except.ok (some a), [], rest)

/-- `ask` (qprompt.py:334-423) over a scripted input list.  Returns
(result, echoed help lines, remaining input, final content of the
caller-supplied rule list).  The caller's list object is shared with the
local `vld` only while `vld = vld or []` keeps the original object, i.e.
when the caller's list is non-empty; the sanitize step rebinds `vld` to a
fresh list, so only the `vld.append(dft)` of qprompt.py:378 is visible to
the caller. -/
def ask (fmt0 : Option Fmt) (dft0 : Option Val) (vld0 : List Rule) (blk0 : Bool)
    (hlp0 : Option String) (inputs : List String) :
    Except PyErr (Option Val) × List String × List String × List Rule :=
  let fmt : Fmt := fmt0.getD idFmt
  let hlp : String := hlp0.getD ("")
  -- `dft = fmt(dft) if dft != None else None` (qprompt.py:375), not guarded
  -- by try, so a raising formatter propagates.
  match (match dft0 with | none => Except.ok (none : Option Val) | some d => fmt d) with
  | Except.error e => (Except.error e, [], inputs, vld0)
  | Except.ok dft1 =>
    let vld1 := match dft1 with | none => vld0 | some d => vld0 ++ [Rule.lit d]
    let callerVld := if vld0.isEmpty then vld0 else vld1
    let blk1 := if dft1.isSome then false else blk0
    match sanitizeVld fmt blk1 vld1 with
    | Except.error e => (Except.error e, [], inputs, callerVld)
    | Except.ok vld2 =>
      let t := askLoop fmt dft1 vld2 blk1 hlp inputs
      (t.1, t.2.1, t.2.2, callerVld)

/-- The format-then-validate step applied to one non-blank, non-help input
line inside `ask`'s loop (qprompt.py:404-422): format the candidate
(failure rejects), then run the acceptance loop when rules exist. -/
def fvStep (fmt : Fmt) (vld : List Rule) (x : Val) : Option Val :=
  let ansF : Option Val := match fmt x with
    | Except.error _ => none
    | Except.ok r => r
  if vld.isEmpty then ansF else validateLoop vld ansF vld

/-- A menu entry (qprompt.py:38).  `func` models the outcome of invoking
the bound action with its stored arguments: `none` when no action is
bound, otherwise the action's result (an exception propagates).  The
`args`/`krgs` fields only select which call syntax `run_func` uses
(qprompt.py:299-309); the outcome is the same in all four branches, so
they are carried but not consulted. -/
structure MenuEntry where
  name : String
  desc : String
  func : Option (Except PyErr Unit)
  args : List Val
  krgs : List (String × Val)
deriving Repr

/-- Which field of the selected entry `show_menu` returns
(`returns` option, qprompt.py:272). -/
inductive Ret where
  | name
  | desc
deriving DecidableEq, Repr

/-- `getattr(entry, returns)` for the supported fields. -/
def retField (e : MenuEntry) : Ret → Val
  | Ret.name => Val.vstr e.name
  | Ret.desc => Val.vstr e.desc

/-- `run_func(entry)` (qprompt.py:299-309): invoke the bound action if
present; its exception propagates. -/
def run_func (e : MenuEntry) : Except PyErr Unit :=
  match e.func with
  | none => Except.ok ()
  | some r => r

/-- The non-paginated body of `show_menu` (qprompt.py:277-297): build the
name rule list, validate the requested default, delegate to `ask`, locate
the selected entry (`[...][0]` raises `IndexError` when nothing matches),
run its action and return the requested field.  Returns (result,
remaining input); banner/note output is not modelled. -/
def showMenuCore (entries : List MenuEntry) (dft0 : Option Val) (rets : Ret)
    (ins : List String) : Except PyErr (Option Val) × List String :=
  let valid : List Rule := entries.map (fun i => Rule.lit (Val.vstr i.name))
  let names : List String := entries.map (fun i => i.name)
  -- `if type(dft) == int: dft = str(dft)` then `if dft not in valid: dft = None`
  let dft1 : Option Val := match dft0 with
    | some (Val.vint n) => some (Val.vstr (toString n))
    | x => x
  let dft2 : Option Val := match dft1 with
    | some (Val.vstr s) => if names.contains s then some (Val.vstr s) else none
    | _ => none
  match ask none dft2 valid false none ins with
  | (Except.error e, _, rest, _) => (Except.error e, rest)
  | (Except.ok choice, _, rest, _) =>
    match entries.find? (fun i => choice == some (Val.vstr i.name)) with
    | none => (Except.error PyErr.indexError, rest)
    | some entry =>
      match run_func entry with
      | Except.error e => (Except.error e, rest)
      | Except.ok _ => (Except.ok (some (retField entry rets)), rest)

/-- The two clamping `if`s at the top of `show_limit`'s loop
(qprompt.py:207-212). -/
def clampWin (n L : Int) (w : Int × Int) : Int × Int :=
  let w1 := if w.2 > n then (n - L, n) else w
  if w1.1 < 0 then (0, L) else w1

/-- `istart ± limit; iend ± limit` after a next/previous selection
(qprompt.py:246-250). -/
def navStep (L : Int) (w : Int × Int) (forward : Bool) : Int × Int :=
  if forward then (w.1 + L, w.2 + L) else (w.1 - L, w.2 - L)

/-- Python `entries[a:b]` for the clamped window indices (`a ≥ 0`). -/
def pySlice (entries : List MenuEntry) (a b : Int) : List MenuEntry :=
  (entries.drop a.toNat).take (b.toNat - a.toNat)

/-- Candidate names for the synthetic "next" entry (qprompt.py:222). -/
def nextCandidates : List String := ["n", "N", "next", "NEXT", "->", ">>", ">>>"]

/-- Candidate names for the synthetic "previous" entry (qprompt.py:230). -/
def prevCandidates : List String := ["p", "P", "prev", "PREV", "<-", "<<", "<<<"]

/-- First candidate name not colliding with the current window's names
(`for i in [...]: if i not in names: ... break`). -/
def pickName (cands names : List String) : Option String :=
  cands.find? (fun i => !(names.contains i))

/-- `"Next %u of %u entries" % (unext, len(entries))`. -/
def nextDesc (u : Int) (tot : Nat) : String :=
  "Next " ++ toString u.toNat ++ " of " ++ toString tot ++ " entries"

/-- `"Previous %u of %u entries" % (uprev, len(entries))`. -/
def prevDesc (u : Int) (tot : Nat) : String :=
  "Previous " ++ toString u.toNat ++ " of " ++ toString tot ++ " entries"

/-- The data one iteration of `show_limit`'s loop computes before showing
the window (qprompt.py:207-243): the clamped window, the name list after
the synthetic appends (note the source appends the literal strings `"n"`
and `"p"` to `names` regardless of which synthetic name was picked,
qprompt.py:227 and 235), the synthetic names/descriptions, and the
temporary default passed to `show_menu`. -/
structure IterInfo where
  win : Int × Int
  names : List String
  nnext : String
  nprev : String
  dnext : String
  dprev : String
  hasNext : Bool
  hasPrev : Bool
  dftReq : Option String
  tmpdft : Option String
deriving DecidableEq, Repr, Inhabited

/-- The temporary-default computation of `show_limit` (qprompt.py:237-243):
note the source tests and assigns the literal string `"n"`, not the name
actually picked for the synthetic next entry. -/
def tmpdftOf (dftS : Option String) (names : List String) : Option String :=
  match dftS with
  | none => none
  | some d =>
    if names.contains d then some d
    else if names.contains ("n") then some ("n") else none

/-- Assemble the `IterInfo` of one iteration from the window, the counts,
the pre-append names and the picked synthetic names. -/
def mkIterInfo (dftS : Option String) (w : Int × Int) (unext uprev : Int) (tot : Nat)
    (names0 : List String) (onext oprev : Option String) : IterInfo :=
  let names1 := match onext with
    | some _ => names0 ++ ["n"]
    | none => names0
  let names2 := match oprev with
    | some _ => names1 ++ ["p"]
    | none => names1
  ⟨w, names2,
    onext.getD (""), oprev.getD (""),
    (match onext with | some _ => nextDesc unext tot | none => ""),
    (match oprev with | some _ => prevDesc uprev tot | none => ""),
    onext.isSome, oprev.isSome, dftS, tmpdftOf dftS names2⟩

/-- One loop iteration of `show_limit` up to the `show_menu` call:
returns the iteration data and the entry group shown. -/
def iterData (entries : List MenuEntry) (L : Int) (dftS : Option String)
    (w0 : Int × Int) : IterInfo × List MenuEntry :=
  let n : Int := entries.length
  let w := clampWin n L w0
  let unext := n - w.2
  let uprev := w.1
  let group0 := pySlice entries w.1 w.2
  let names0 := group0.map (fun e => e.name)
  let onext : Option String := if unext > 0 then pickName nextCandidates names0 else none
  let group1 := match onext with
    | some i => group0 ++ [⟨i, nextDesc unext entries.length, none, [], []⟩]
    | none => group0
  let names1 := match onext with
    | some _ => names0 ++ ["n"]
    | none => names0
  let oprev : Option String := if uprev > 0 then pickName prevCandidates names1 else none
  let group2 := match oprev with
    | some i => group1 ++ [⟨i, prevDesc uprev entries.length, none, [], []⟩]
    | none => group1
  (mkIterInfo dftS w unext uprev entries.length names0 onext oprev, group2)

/-- The `while True` loop of `show_limit` (qprompt.py:206-252).  Each
iteration performs at least one blocking read, so `inputs.length + 1`
fuel always suffices; fuel exhaustion (unreachable from `show_limit`)
reports end of input.  Returns (result, remaining input, the data of
every displayed window in order). -/
def showLimitGo (entries : List MenuEntry) (L : Int) (dftS : Option String) (rets : Ret) :
    Nat → Int × Int → List String → Except PyErr (Option Val) × List String × List IterInfo
  | 0, _, ins => (Except.error PyErr.eofError, ins, [])
  | Nat.succ fuel, w0, ins =>
    let info := (iterData entries L dftS w0).1
    let group := (iterData entries L dftS w0).2
    let sm := showMenuCore group (info.tmpdft.map Val.vstr) rets ins
    match sm.1 with
    | Except.error e => (Except.error e, sm.2, [info])
    | Except.ok r =>
      if r == some (Val.vstr info.nnext) || r == some (Val.vstr info.dnext) then
        let t := showLimitGo entries L dftS rets fuel (navStep L info.win true) sm.2
        (t.1, t.2.1, info :: t.2.2)
      else if r == some (Val.vstr info.nprev) || r == some (Val.vstr info.dprev) then
        let t := showLimitGo entries L dftS rets fuel (navStep L info.win false) sm.2
        (t.1, t.2.1, info :: t.2.2)
      else (Except.ok r, sm.2, [info])

/-- `show_limit` (qprompt.py:194-252): `limit <= 0` falls back to the
plain menu; otherwise an `int` default is stringified and the paginated
loop starts at window `(0, limit)`. -/
def show_limit (entries : List MenuEntry) (L : Int) (dft0 : Option Val) (rets : Ret)
    (ins : List String) : Except PyErr (Option Val) × List String × List IterInfo :=
  if L ≤ 0 then
    let (r, rest) := showMenuCore entries dft0 rets ins
    (r, rest, [])
  else
    let dftS : Option String := match dft0 with
      | some (Val.vint n) => some (toString n)
      | some (Val.vstr s) => some s
      | none => none
    showLimitGo entries L dftS rets (ins.length + 1) (0, L) ins

/-- `show_menu` (qprompt.py:254-297): a truthy `limit` delegates to
`show_limit`, otherwise the plain menu body runs. -/
def show_menu (entries : List MenuEntry) (dft0 : Option Val) (rets : Ret)
    (limit : Option Int) (ins : List String) :
    Except PyErr (Option Val) × List String × List IterInfo :=
  match limit with
  | some L =>
    if L != 0 then show_limit entries L dft0 rets ins
    else
      let (r, rest) := showMenuCore entries dft0 rets ins
      (r, rest, [])
  | none =>
    let (r, rest) := showMenuCore entries dft0 rets ins
    (r, rest, [])

/-- The menu object (qprompt.py:95-142); the claims never use stored
`show` kwargs, so only the entry list is carried. -/
structure Menu where
  entries : List MenuEntry

/-- The current process input source: the real terminal stream or the
`StringIO` installed by `StdinSetup.setup` (qprompt.py:65-93), each with
its pending unread lines. -/
inductive Cur where
  | real
  | strBuf : List String → Cur
deriving Repr

/-- Process-wide state touched by the menu controller: `sys.argv[1:]`,
the pending lines of the real terminal stream, and the current
`sys.stdin`. -/
structure PyState where
  argv : List String
  realLines : List String
  cur : Cur
deriving Repr

/-- The pending lines of the current input source. -/
def pending (st : PyState) : List String :=
  match st.cur with
  | Cur.real => st.realLines
  | Cur.strBuf l => l

/-- Write back the unconsumed lines of the current input source. -/
def setPending (st : PyState) (l : List String) : PyState :=
  match st.cur with
  | Cur.real => { st with realLines := l }
  | Cur.strBuf _ => { st with cur := Cur.strBuf l }

/-- `Menu.show` as `Menu.main` uses it: `show_menu` on the entries with
default options (the `note` kwarg only affects output). -/
def menuShow (m : Menu) (ins : List String) : Except PyErr (Option Val) × List String :=
  let t := show_menu m.entries none Ret.name none ins
  (t.1, t.2.1)

/-- The `while self.show(...) not in quit: pass` loop of `Menu.main`
(qprompt.py:136-139).  `x not in None` raises `TypeError`.  Each `show`
reads at least one line, so `ins.length + 1` fuel suffices. -/
def showsLoop (m : Menu) (quitE : Option (String × String)) :
    Nat → List String → Except PyErr (Option Val) × List String
  | 0, ins => (Except.error PyErr.eofError, ins)
  | Nat.succ fuel, ins =>
    match menuShow m ins with
    | (Except.error e, rest) => (Except.error e, rest)
    | (Except.ok v, rest) =>
      match quitE with
      | none => (Except.error PyErr.typeError, rest)
      | some q =>
        if v == some (Val.vstr q.1) || v == some (Val.vstr q.2) then (Except.ok none, rest)
        else showsLoop m quitE fuel rest

/-- The `with StdinAuto(auto):` body of `Menu.main` (qprompt.py:135-142):
`StdinAuto.__init__` falls back to `sys.argv[1:]` when `auto` is empty;
`__enter__` installs the scripted stream only when the list is non-empty;
`__exit__` always runs `stdin_setup.teardown()`, restoring the stream
captured at import time (the real one) — also when the body raises. -/
def mainWith (m : Menu) (auto : List String) (loop : Bool)
    (quitE : Option (String × String)) (st : PyState) :
    Except PyErr (Option Val) × PyState :=
  let a := if auto.isEmpty then st.argv else auto
  let st1 := if a.isEmpty then st else { st with cur := Cur.strBuf a }
  let ins := pending st1
  let t :=
    if loop then showsLoop m quitE (ins.length + 1) ins
    else menuShow m ins
  let st2 := setPending st1 t.2
  (t.1, { st2 with cur := Cur.real })

/-- `Menu.main` (qprompt.py:121-142): when a quit entry is requested, the
last-entry comparison `self.entries[-1][:2] != quit` runs first — on an
empty menu `entries[-1]` raises `IndexError` before anything else —
otherwise the quit entry is appended when absent and the scripted-input
scope runs the show loop.  Returns (result, final state, final menu). -/
def Menu.main (m : Menu) (auto : List String) (loop : Bool)
    (quitE : Option (String × String)) (st : PyState) :
    Except PyErr (Option Val) × PyState × Menu :=
  match quitE with
  | some q =>
    match m.entries.getLast? with
    | none => (Except.error PyErr.indexError, st, m)
    | some last =>
      let m1 : Menu :=
        if (last.name, last.desc) ≠ q then ⟨m.entries ++ [⟨q.1, q.2, none, [], []⟩]⟩ else m
      let t := mainWith m1 auto loop quitE st
      (t.1, t.2, m1)
  | none =>
    let t := mainWith m auto loop none st
    (t.1, t.2, m)

/-! Concrete instances used by the claim theorems below. -/

/-- The rule set `[1, 2, 3]` of integer literals (spec scenario for C1). -/
def c1vld : List Rule := [Rule.lit (Val.vint 1), Rule.lit (Val.vint 2), Rule.lit (Val.vint 3)]

/-- Seven ordinally named menu entries (spec scenario for C5). -/
def ordEntries : List MenuEntry :=
  [⟨"1", "Entry one", none, [], []⟩, ⟨"2", "Entry two", none, [], []⟩,
   ⟨"3", "Entry three", none, [], []⟩, ⟨"4", "Entry four", none, [], []⟩,
   ⟨"5", "Entry five", none, [], []⟩, ⟨"6", "Entry six", none, [], []⟩,
   ⟨"7", "Entry seven", none, [], []⟩]

/-- A one-entry menu, paginated with a limit above the entry count. -/
def oneEntryMenu : List MenuEntry := [⟨"a", "Entry a", none, [], []⟩]

/-- A menu whose first entry is literally named `"n"`, so the first
synthetic-next candidate collides. -/
def collideEntries : List MenuEntry :=
  [⟨"n", "Entry n", none, [], []⟩, ⟨"x", "Entry x", none, [], []⟩,
   ⟨"y", "Entry y", none, [], []⟩, ⟨"z", "Entry z", none, [], []⟩]

/-- Two plainly named entries for the pagination-invariant witness. -/
def twoEntries : List MenuEntry :=
  [⟨"a", "Entry a", none, [], []⟩, ⟨"b", "Entry b", none, [], []⟩]

/-- The first displayed-window record of the collision run (C4). -/
def collideInfo : IterInfo :=
  (show_limit collideEntries 3 (some (Val.vstr ("z"))) Ret.name ["x"]).2.2.headD default

/-- The first displayed-window record of the witness run (C4 witness). -/
def twoInfo : IterInfo :=
  (show_limit twoEntries 1 (some (Val.vstr ("a"))) Ret.name ["a"]).2.2.headD default

/-- The first displayed-window record of the witness run (C2 witness). -/
def twoInvInfo : IterInfo :=
  (show_limit twoEntries 1 none Ret.name ["a"]).2.2.headD default

/-- A formatter appending `"a"` to the string form of its input
(a non-idempotent formatter one may pass to `ask`). -/
def apFmt : Fmt := fun v => Except.ok (some (Val.vstr (pyStr v ++ "a")))

/-- A rule set accepting exactly the once-formatted string `"xa"`. -/
def apVld : List Rule := [Rule.lit (Val.vstr ("xa"))]

/-- A menu whose single entry's action raises (models a test action that
throws). -/
def raisingMenu : Menu := ⟨[⟨"g", "Generate", some (Except.error PyErr.valueError), [], []⟩]⟩

/-- A process state whose current input source is the real terminal with
one pending line. -/
def realState : PyState := ⟨[], ["later line"], Cur.real⟩

/-- The pagination-window invariant of the spec (data-model section):
`0 ≤ istart ≤ iend ≤ len(entries)` and `iend - istart ≤ limit`. -/
def winInv (n L : Int) (w : Int × Int) : Prop :=
  0 ≤ w.1 ∧ w.1 ≤ w.2 ∧ w.2 ≤ n ∧ w.2 - w.1 ≤ L

instance winInvDecidable (n L : Int) (w : Int × Int) : Decidable (winInv n L w) :=
  inferInstanceAs (Decidable (0 ≤ w.1 ∧ w.1 ≤ w.2 ∧ w.2 ≤ n ∧ w.2 - w.1 ≤ L))

/-! Claim theorems: concrete evaluations. -/

/-- C1 counterexample: `ask("Pick one", vld=[1,2,3])` with scripted input
`["5","2"]` does not return the integer 2 — a string input line never
compares equal to an integer literal rule under the default identity
formatter. -/
theorem c1_cex :
    (ask none none c1vld false none ["5", "2"]).1 ≠ Except.ok (some (Val.vint 2)) := by
  intro h
  have h0 : (ask none none c1vld false none ["5", "2"]).1 = Except.error PyErr.eofError := by
    rfl
  rw [h0] at h
  exact Except.noConfusion h

/-- C1 amended: with the integer-literal rule set `[1,2,3]` and scripted
input `["5","2"]`, both lines are rejected and the loop exhausts its
input, so the call fails with `EOFError` instead of returning a value. -/
theorem c1_amended :
    (ask none none c1vld false none ["5", "2"]).1 = Except.error PyErr.eofError := by
  rfl

/-- C3 (code bug): with `blk=True`, no default and an empty rule set, the
`if vld:` guard of qprompt.py:380 skips adding `""`, so a blank line is
rejected forever (EOFError once scripted input runs out), contradicting
the claim and `ask`'s own docstring; with any non-empty rule set the same
blank line is accepted and `""` returned. -/
theorem c3_code_eval :
    (ask none none [] true none [""]).1 = Except.error PyErr.eofError ∧
    (ask none none [Rule.lit (Val.vint 1)] true none [""]).1 =
      Except.ok (some (Val.vstr (""))) := by
  exact ⟨by rfl, by rfl⟩

/-- C5 counterexample: the paginated scenario with 7 ordinal entries,
`limit=3` and scripted input `["n","n","3"]` does not return `"3"`. -/
theorem c5_cex :
    (show_limit ordEntries 3 none Ret.name ["n", "n", "3"]).1 ≠
      Except.ok (some (Val.vstr ("3"))) := by
  intro h
  have h0 : (show_limit ordEntries 3 none Ret.name ["n", "n", "3"]).1 =
      Except.error PyErr.eofError := by rfl
  rw [h0] at h
  exact Except.noConfusion h

/-- C5 amended: the run navigates forward twice, the third displayed
window is clamped to `(4, 7)` (entries "5","6","7"), so the selection
`"3"` is not visible, the line is rejected and the scripted input is
exhausted (`EOFError`); `istart` ends at 4, not 6. -/
theorem c5_amended :
    (show_limit ordEntries 3 none Ret.name ["n", "n", "3"]).1 =
      Except.error PyErr.eofError ∧
    ((show_limit ordEntries 3 none Ret.name ["n", "n", "3"]).2.2.map (fun i => i.win)) =
      [(0, 3), (3, 6), (4, 7)] := by
  exact ⟨by rfl, by rfl⟩

/-- C2 counterexample: with one entry and `limit=5` the displayed window
is `(0, 5)`, violating `iend ≤ len(entries)`. -/
theorem c2_cex :
    ¬ ∀ info ∈ (show_limit oneEntryMenu 5 none Ret.name ["a"]).2.2,
      winInv ((oneEntryMenu.length : Int)) 5 info.win := by
  intro h
  have hb : ((show_limit oneEntryMenu 5 none Ret.name ["a"]).2.2.all
      (fun i => decide (winInv ((oneEntryMenu.length : Int)) 5 i.win))) = true :=
    List.all_eq_true.mpr (fun i hi => decide_eq_true (h i hi))
  have hf : ((show_limit oneEntryMenu 5 none Ret.name ["a"]).2.2.all
      (fun i => decide (winInv ((oneEntryMenu.length : Int)) 5 i.win))) = false := by
    rfl
  rw [hf] at hb
  exact Bool.noConfusion hb

/-- C4 counterexample: with a visible entry literally named `"n"`, the
synthetic next entry is named `"N"`, yet the not-visible default `"z"` is
redirected to `"n"` — the colliding real entry's name, not the synthetic
next entry's name. -/
theorem c4_cex :
    collideInfo.hasNext = true ∧ collideInfo.nnext = "N" ∧
    collideInfo.dftReq = some ("z") ∧ collideInfo.names.contains ("z") = false ∧
    collideInfo.tmpdft = some ("n") ∧ collideInfo.tmpdft ≠ some collideInfo.nnext := by
  refine ⟨by rfl, by rfl, by rfl, by rfl, by rfl, ?_⟩
  intro heq
  have h1 : collideInfo.tmpdft = some ("n") := by rfl
  have h2 : collideInfo.nnext = "N" := by rfl
  rw [h1, h2] at heq
  have h3 : ("n" : String) = "N" := Option.some.inj heq
  exact absurd h3 (by decide)

/-- C6 counterexample: with the appending formatter and the rule set
`{"xa"}`, input `"x"` is accepted as `"xa"`, but feeding the accepted
value through the same format-then-validate step rejects it — the step is
not idempotent for an arbitrary formatter. -/
theorem c6_cex :
    fvStep apFmt apVld (Val.vstr ("x")) = some (Val.vstr ("xa")) ∧
    fvStep apFmt apVld (Val.vstr ("xa")) = none := by
  exact ⟨by rfl, by rfl⟩

/-- C7 counterexample: with blank input allowed and an empty rule set, an
input line of `"?"` makes `print_help`'s `lst.remove("")` raise
`ValueError`, which propagates out of `ask` — help is not printed and the
loop does not continue. -/
theorem c7_cex :
    (ask none none [] true none ["?"]).1 = Except.error PyErr.valueError := by
  rfl

/-- C10 counterexample: when the caller passes an empty list as the rule
set, `vld = vld or []` rebinds to a fresh list, so the caller's list is
not mutated: after the call it is still `[]`, not `[fmt(dft)]`. -/
theorem c10_cex :
    (ask none (some (Val.vint 1)) [] false none [""]).2.2.2 = ([] : List Rule) ∧
    (ask none (some (Val.vint 1)) [] false none [""]).2.2.2 ≠
      [Rule.lit (Val.vint 1)] := by
  refine ⟨by rfl, ?_⟩
  intro h
  have h0 : (ask none (some (Val.vint 1)) [] false none [""]).2.2.2 = ([] : List Rule) := by
    rfl
  rw [h0] at h
  exact List.noConfusion h

/-- C9: calling `Menu.main` with the default quit entry on an empty menu
raises `IndexError` from the `self.entries[-1][:2]` comparison, before
the quit entry could be appended or a menu shown; the state and menu are
untouched. -/
theorem c9_empty_menu (auto : List String) (loop : Bool) (st : PyState) :
    Menu.main ⟨[]⟩ auto loop (some ("q", "Quit")) st =
      (Except.error PyErr.indexError, st, (⟨[]⟩ : Menu)) := by
  rfl

/-! Helper lemmas for the quantified claim theorems. -/

/-- In an all-literal suffix of the rule list the acceptance loop either
finds the candidate among the literals (returning it unchanged) or
rejects. -/
theorem validateLoop_litOnly (vld : List Rule) (x a : Val) :
    ∀ l : List Rule, (∀ r ∈ l, ∃ v, r = Rule.lit v) →
      validateLoop vld (some x) l = some a → a = x ∧ litMem x vld = true := by
  intro l
  induction l with
  | nil => intro _ h; exact absurd h (by simp [validateLoop])
  | cons r rest ih =>
    intro hl h
    rcases hl r (List.mem_cons_self r rest) with ⟨v, rfl⟩
    simp only [validateLoop] at h
    by_cases hv : valInVld (some x) vld = true
    · rw [if_pos hv] at h
      refine ⟨(Option.some.inj h).symm, hv⟩
    · rw [if_neg hv] at h
      exact ih (fun r hr => hl r (List.mem_cons_of_mem _ hr)) h

/-- When the candidate is a literal member of an all-literal, non-empty
rule list, the acceptance loop accepts it unchanged. -/
theorem validateLoop_litOnly_mem (vld : List Rule) (hne : vld ≠ [])
    (hlit : ∀ r ∈ vld, ∃ v, r = Rule.lit v) (x : Val) (hx : litMem x vld = true) :
    validateLoop vld (some x) vld = some x := by
  cases vld with
  | nil => exact absurd rfl hne
  | cons r rest =>
    rcases hlit r (List.mem_cons_self r rest) with ⟨v, rfl⟩
    have hv : valInVld (some x) (Rule.lit v :: rest) = true := hx
    simp only [validateLoop]
    rw [if_pos hv]

/-- C6 amended: for the identity formatter (no `fmt` supplied) and a rule
set of literal values only, the format-then-validate step is idempotent:
feeding an accepted value back through the step accepts it again with the
same value.  (With an arbitrary formatter the property fails, see the
counterexample; with type-tag rules the accepted value can change on the
second pass.) -/
theorem c6_amended (vld : List Rule) (x a : Val)
    (hlit : ∀ r ∈ vld, ∃ v, r = Rule.lit v)
    (h : fvStep idFmt vld x = some a) : fvStep idFmt vld a = some a := by
  unfold fvStep at h ⊢
  simp only [idFmt] at h ⊢
  by_cases hv : vld.isEmpty = true
  · rw [if_pos hv]
  · rw [if_neg hv] at h ⊢
    have hne : vld ≠ [] := by
      intro hnil
      rw [hnil] at hv
      exact hv rfl
    rcases validateLoop_litOnly vld x a vld hlit h with ⟨rfl, hmem⟩
    exact validateLoop_litOnly_mem vld hne hlit a hmem

/-- C6 witness: a concrete all-literal rule set and input on which the
amended idempotence theorem applies. -/
theorem c6_witness :
    (∀ r ∈ ([Rule.lit (Val.vstr ("b"))] : List Rule), ∃ v, r = Rule.lit v) ∧
    fvStep idFmt [Rule.lit (Val.vstr ("b"))] (Val.vstr ("b")) = some (Val.vstr ("b")) := by
  constructor
  · intro r hr
    simp only [List.mem_singleton] at hr
    exact ⟨Val.vstr ("b"), hr⟩
  · exact c6_amended [Rule.lit (Val.vstr ("b"))] (Val.vstr ("b")) (Val.vstr ("b"))
      (by intro r hr; simp only [List.mem_singleton] at hr; exact ⟨Val.vstr ("b"), hr⟩)
      (by rfl)

/-- C7 amended: whenever the help printer itself does not fault (i.e.
except when blank input is allowed while `""` is not among the literal
rules, see the counterexample), an input line of exactly `"?"` prints the
help lines and returns to the prompt loop without consuming a retry: the
remainder of the loop behaves exactly as if the `"?"` line had never been
read, so valid input after a help request is still accepted. -/
theorem c7_amended (fmt : Fmt) (dft : Option Val) (vld : List Rule) (blk : Bool)
    (hlp : String) (rest : List String) (hl : List String)
    (h : printHelp vld blk hlp = Except.ok hl) :
    askLoop fmt dft vld blk hlp ("?" :: rest) =
      ((askLoop fmt dft vld blk hlp rest).1,
       hl ++ (askLoop fmt dft vld blk hlp rest).2.1,
       (askLoop fmt dft vld blk hlp rest).2.2) := by
  simp only [askLoop, h]
  rw [if_pos trivial]

/-- C7 witness: a concrete configuration on which the amended help
theorem applies: `"?"` prints the help line and the following valid line
is accepted. -/
theorem c7_witness :
    printHelp [Rule.lit (Val.vstr ("a"))] false ("") =
      Except.ok (["[HELP] Valid input: a"]) ∧
    askLoop idFmt none [Rule.lit (Val.vstr ("a"))] false ("") ["?", "a"] =
      (Except.ok (some (Val.vstr ("a"))), ["[HELP] Valid input: a"], []) := by
  refine ⟨by rfl, ?_⟩
  rw [c7_amended idFmt none [Rule.lit (Val.vstr ("a"))] false ("") ["a"]
      ["[HELP] Valid input: a"] (by rfl)]
  rfl

/-- C10 amended: when the caller-supplied rule list is non-empty (so
`vld = vld or []` keeps the caller's object) and the formatted default is
not `None`, `ask` appends the formatted default to the caller's list and
the mutation persists after the call. -/
theorem c10_amended (fmt0 : Option Fmt) (d0 : Val) (vld0 : List Rule) (blk0 : Bool)
    (hlp0 : Option String) (ins : List String) (d : Val)
    (hne : vld0 ≠ []) (hf : (fmt0.getD idFmt) d0 = Except.ok (some d)) :
    (ask fmt0 (some d0) vld0 blk0 hlp0 ins).2.2.2 = vld0 ++ [Rule.lit d] := by
  have h1 : vld0.isEmpty = false := by
    cases vld0 with
    | nil => exact absurd rfl hne
    | cons a as => rfl
  simp only [ask, hf, h1]
  generalize sanitizeVld _ _ _ = sv
  cases sv with
  | error e => rfl
  | ok v => rfl

/-- C10 witness: a concrete non-empty caller rule list to which the
(identity-formatted) default `7` is appended in place. -/
theorem c10_witness :
    (([Rule.lit (Val.vstr ("a"))] : List Rule) ≠ []) ∧
    (Option.getD (none : Option Fmt) idFmt) (Val.vint 7) = Except.ok (some (Val.vint 7)) ∧
    (ask none (some (Val.vint 7)) [Rule.lit (Val.vstr ("a"))] false none [""]).2.2.2 =
      [Rule.lit (Val.vstr ("a"))] ++ [Rule.lit (Val.vint 7)] := by
  refine ⟨?_, by rfl, ?_⟩
  · intro h; exact List.noConfusion h
  · exact c10_amended none (Val.vint 7) [Rule.lit (Val.vstr ("a"))] false none [""]
      (Val.vint 7) (by intro h; exact List.noConfusion h) (by rfl)

/-- The scripted-input scope of `Menu.main` always restores the real
input source on exit and, when a non-empty scripted list is given, leaves
the real terminal's pending lines untouched. -/
theorem mainWith_restores (m : Menu) (auto : List String) (loop : Bool)
    (quitE : Option (String × String)) (st : PyState) (ha : auto ≠ []) :
    (mainWith m auto loop quitE st).2.cur = Cur.real ∧
    (mainWith m auto loop quitE st).2.realLines = st.realLines := by
  have h1 : auto.isEmpty = false := by
    cases auto with
    | nil => exact absurd rfl ha
    | cons a as => rfl
  simp [mainWith, h1, setPending, pending]

/-- C8: for every call of `Menu.main` with a non-empty scripted input
list, starting from the real input source, the real source is current
again after the call on every exit path — a normal return, a propagated
action exception, or the pre-scope `IndexError` — and the terminal's own
pending input is untouched. -/
theorem c8_restore (m : Menu) (auto : List String) (loop : Bool)
    (quitE : Option (String × String)) (st : PyState)
    (hst : st.cur = Cur.real) (ha : auto ≠ []) :
    (Menu.main m auto loop quitE st).2.1.cur = Cur.real ∧
    (Menu.main m auto loop quitE st).2.1.realLines = st.realLines := by
  unfold Menu.main
  cases quitE with
  | none => exact mainWith_restores m auto loop none st ha
  | some q =>
    cases hlast : m.entries.getLast? with
    | none => simp only [hlast]; exact ⟨hst, trivial⟩
    | some last =>
      simp only [hlast]
      exact mainWith_restores _ auto loop (some q) st ha

/-- C8 witness: a menu whose single action raises; the scripted call
propagates the exception yet the final state's input source is the real
one with its pending line intact. -/
theorem c8_witness :
    realState.cur = Cur.real ∧ ((["g"] : List String) ≠ []) ∧
    ((Menu.main raisingMenu ["g"] false (some ("q", "Quit")) realState).2.1.cur = Cur.real ∧
     (Menu.main raisingMenu ["g"] false (some ("q", "Quit")) realState).2.1.realLines =
       realState.realLines) := by
  refine ⟨rfl, ?_, ?_⟩
  · intro h; exact List.noConfusion h
  · exact c8_restore raisingMenu ["g"] false (some ("q", "Quit")) realState rfl
      (by intro h; exact List.noConfusion h)

/-- Both clamps keep the window span equal to the limit. -/
theorem clampWin_diff (n L : Int) (w : Int × Int) (hw : w.2 - w.1 = L) :
    (clampWin n L w).2 - (clampWin n L w).1 = L := by
  rcases w with ⟨s, e⟩
  simp only [clampWin] at hw ⊢
  split_ifs <;> dsimp only at * <;> omega

/-- When the limit is positive and no larger than the entry count, the
clamped window satisfies the pagination invariant. -/
theorem clampWin_inv (n L : Int) (w : Int × Int) (hL : 0 < L) (hLn : L ≤ n)
    (hw : w.2 - w.1 = L) : winInv n L (clampWin n L w) := by
  rcases w with ⟨s, e⟩
  simp only [clampWin, winInv] at hw ⊢
  split_ifs <;> dsimp only at * <;> omega

/-- A navigation step shifts both ends, keeping the span. -/
theorem navStep_diff (L : Int) (w : Int × Int) (b : Bool) (hw : w.2 - w.1 = L) :
    (navStep L w b).2 - (navStep L w b).1 = L := by
  cases b <;> simp [navStep] <;> omega

/-- Every displayed-window record of the pagination loop was built by
`iterData` from some start window, and that window's span equals the
limit whenever the initial window's span does. -/
theorem showLimitGo_src (entries : List MenuEntry) (L : Int) (dftS : Option String)
    (rets : Ret) :
    ∀ fuel : Nat, ∀ w : Int × Int, ∀ ins : List String, ∀ info : IterInfo,
      info ∈ (showLimitGo entries L dftS rets fuel w ins).2.2 →
      ∃ w0 : Int × Int, info = (iterData entries L dftS w0).1 ∧
        (w.2 - w.1 = L → w0.2 - w0.1 = L) := by
  intro fuel
  induction fuel with
  | zero =>
    intro w ins info hinfo
    simp [showLimitGo] at hinfo
  | succ f ih =>
    intro w ins info hinfo
    have hwin : ((iterData entries L dftS w).1).win =
        clampWin ((entries.length : Int)) L w := rfl
    simp only [showLimitGo] at hinfo
    split at hinfo
    · -- show_menu raised: one record, built from the current window
      simp only [List.mem_singleton] at hinfo
      exact ⟨w, hinfo, fun h => h⟩
    · -- show_menu returned a selection
      split at hinfo
      · -- next selected: head record or a record of the forward recursion
        simp only [List.mem_cons] at hinfo
        rcases hinfo with hinfo | hinfo
        · exact ⟨w, hinfo, fun h => h⟩
        · rcases ih _ _ info hinfo with ⟨w0, heq, himp⟩
          refine ⟨w0, heq, fun h => himp ?_⟩
          exact navStep_diff L _ true (hwin ▸ clampWin_diff _ L w h)
      · split at hinfo
        · -- previous selected
          simp only [List.mem_cons] at hinfo
          rcases hinfo with hinfo | hinfo
          · exact ⟨w, hinfo, fun h => h⟩
          · rcases ih _ _ info hinfo with ⟨w0, heq, himp⟩
            refine ⟨w0, heq, fun h => himp ?_⟩
            exact navStep_diff L _ false (hwin ▸ clampWin_diff _ L w h)
        · -- terminal selection: one record
          simp only [List.mem_singleton] at hinfo
          exact ⟨w, hinfo, fun h => h⟩

/-- C2 amended: for every entry list, every limit `0 < limit ≤ len(entries)`
and every scripted input (hence every realizable sequence of next/previous
navigations), each displayed pagination window `(istart, iend)` satisfies
`0 ≤ istart ≤ iend ≤ len(entries)` and `iend - istart ≤ limit`.  (When
`limit > len(entries)` the clamps force the window `(0, limit)` with
`iend > len(entries)`, see the counterexample.) -/
theorem c2_amended (entries : List MenuEntry) (L : Int) (dft0 : Option Val) (rets : Ret)
    (ins : List String) (hL : 0 < L) (hLn : L ≤ (entries.length : Int)) :
    ∀ info ∈ (show_limit entries L dft0 rets ins).2.2,
      winInv ((entries.length : Int)) L info.win := by
  intro info hinfo
  have hL0 : ¬ L ≤ 0 := by omega
  simp only [show_limit, if_neg hL0] at hinfo
  rcases showLimitGo_src entries L _ rets (ins.length + 1) (0, L) ins info hinfo with
    ⟨w0, rfl, himp⟩
  have hd : w0.2 - w0.1 = L := himp (by dsimp only; omega)
  exact clampWin_inv ((entries.length : Int)) L w0 hL hLn hd

/-- C2 witness: a concrete two-entry menu with limit 1 whose displayed
window satisfies the invariant. -/
theorem c2_witness :
    ((0 : Int) < 1) ∧ ((1 : Int) ≤ ((twoEntries.length : Int))) ∧
    winInv ((twoEntries.length : Int)) 1 twoInvInfo.win := by
  have h0 : (show_limit twoEntries 1 none Ret.name ["a"]).2.2 = [twoInvInfo] := by rfl
  refine ⟨by decide, by decide, ?_⟩
  exact c2_amended twoEntries 1 none Ret.name ["a"] (by decide) (by decide) twoInvInfo
    (by rw [h0]; exact List.mem_singleton_self _)

/-- Temporary-default facts for one assembled iteration record: a visible
requested default is kept; an invisible one is redirected to the literal
name `"n"` whenever a synthetic next entry was appended (the append
always puts `"n"` into the name list); and an invisible default is never
redirected to the synthetic previous entry's name (the previous
candidates never include `"n"`). -/
theorem mkIterInfo_tmpdft_spec (w : Int × Int) (u1 u2 : Int) (tot : Nat)
    (names0 : List String) (onext oprev : Option String) (d : String)
    (hprev : ∀ i, oprev = some i → i ∈ prevCandidates) :
    ((mkIterInfo (some d) w u1 u2 tot names0 onext oprev).names.contains d = true →
      (mkIterInfo (some d) w u1 u2 tot names0 onext oprev).tmpdft = some d) ∧
    ((mkIterInfo (some d) w u1 u2 tot names0 onext oprev).names.contains d = false →
      (mkIterInfo (some d) w u1 u2 tot names0 onext oprev).hasNext = true →
      (mkIterInfo (some d) w u1 u2 tot names0 onext oprev).tmpdft = some ("n")) ∧
    ((mkIterInfo (some d) w u1 u2 tot names0 onext oprev).names.contains d = false →
      (mkIterInfo (some d) w u1 u2 tot names0 onext oprev).tmpdft ≠
        some ((mkIterInfo (some d) w u1 u2 tot names0 onext oprev).nprev)) := by
  have hpn : ∀ i, oprev = some i → i ≠ "n" := by
    intro i hi
    have hmem := hprev i hi
    simp only [prevCandidates, List.mem_cons, List.not_mem_nil, or_false] at hmem
    rcases hmem with h | h | h | h | h | h | h <;> subst h <;> decide
  rcases onext with _ | ni <;> rcases oprev with _ | pi <;>
    simp only [mkIterInfo, tmpdftOf, Option.isSome_none, Option.isSome_some,
      Option.getD_some, Option.getD_none] <;>
    refine ⟨?_, ?_, ?_⟩
  · intro hc
    rw [if_pos hc]
  · intro _ hfalse
    exact absurd hfalse (by simp)
  · intro hc
    rw [if_neg (fun hcc => Bool.false_ne_true (hc ▸ hcc))]
    by_cases hn : names0.contains ("n") = true
    · rw [if_pos hn]
      intro h
      exact absurd (Option.some.inj h) (by decide)
    · rw [if_neg hn]
      intro h
      exact Option.noConfusion h
  · intro hc
    rw [if_pos hc]
  · intro _ hfalse
    exact absurd hfalse (by simp)
  · intro hc
    rw [if_neg (fun hcc => Bool.false_ne_true (hc ▸ hcc))]
    have hne : pi ≠ "n" := hpn pi rfl
    by_cases hn : (names0 ++ ["p"]).contains ("n") = true
    · rw [if_pos hn]
      intro h
      exact hne (Option.some.inj h).symm
    · rw [if_neg hn]
      intro h
      exact Option.noConfusion h
  · intro hc
    rw [if_pos hc]
  · intro hc _
    rw [if_neg (fun hcc => Bool.false_ne_true (hc ▸ hcc))]
    rw [if_pos (by simp)]
  · intro hc
    rw [if_neg (fun hcc => Bool.false_ne_true (hc ▸ hcc))]
    rw [if_pos (by simp)]
    intro h
    exact absurd (Option.some.inj h) (by decide)
  · intro hc
    rw [if_pos hc]
  · intro hc _
    rw [if_neg (fun hcc => Bool.false_ne_true (hc ▸ hcc))]
    rw [if_pos (by simp)]
  · intro hc
    rw [if_neg (fun hcc => Bool.false_ne_true (hc ▸ hcc))]
    rw [if_pos (by simp)]
    have hne : pi ≠ "n" := hpn pi rfl
    intro h
    exact hne (Option.some.inj h).symm

/-- The synthetic-previous name picked by an iteration always comes from
the previous-candidate list. -/
theorem iterData_oprev_shape (entries : List MenuEntry) (L : Int) (dftS : Option String)
    (w : Int × Int) :
    ∃ u1 u2 tot names0 onext oprev,
      (∀ i, oprev = some i → i ∈ prevCandidates) ∧
      (iterData entries L dftS w).1 =
        mkIterInfo dftS (clampWin ((entries.length : Int)) L w) u1 u2 tot names0 onext oprev := by
  refine ⟨_, _, _, _, _, _, ?_, rfl⟩
  intro i hi
  split at hi
  · exact List.mem_of_find?_eq_some hi
  · exact Option.noConfusion hi

/-- Temporary-default facts for every record of the pagination loop. -/
theorem showLimitGo_tmpdft (entries : List MenuEntry) (L : Int) (dftS : Option String)
    (rets : Ret) (fuel : Nat) (w : Int × Int) (ins : List String) (info : IterInfo)
    (d : String) (hmem : info ∈ (showLimitGo entries L dftS rets fuel w ins).2.2)
    (hreq : info.dftReq = some d) :
    (info.names.contains d = true → info.tmpdft = some d) ∧
    (info.names.contains d = false → info.hasNext = true → info.tmpdft = some ("n")) ∧
    (info.names.contains d = false → info.tmpdft ≠ some info.nprev) := by
  rcases showLimitGo_src entries L dftS rets fuel w ins info hmem with ⟨w0, rfl, _⟩
  rcases iterData_oprev_shape entries L dftS w0 with
    ⟨u1, u2, tot, names0, onext, oprev, hprev, hshape⟩
  rw [hshape] at hreq ⊢
  have hds : dftS = some d := hreq
  subst hds
  exact mkIterInfo_tmpdft_spec _ u1 u2 tot names0 onext oprev d hprev

/-- C4 amended, over every reachable iteration of `show_limit`: when a
default was requested, a visible default is kept unchanged; an invisible
default with a synthetic next entry appended is redirected to the literal
string `"n"` (qprompt.py:227 appends `"n"` to the name list whatever
synthetic name was picked, so the redirect equals the synthetic next
entry's name exactly when that name is `"n"`, i.e. when no visible entry
collides); and the redirect never targets the synthetic previous entry's
name. -/
theorem c4_amended (entries : List MenuEntry) (L : Int) (dft0 : Option Val) (rets : Ret)
    (ins : List String) (info : IterInfo) (d : String)
    (hmem : info ∈ (show_limit entries L dft0 rets ins).2.2)
    (hreq : info.dftReq = some d) :
    (info.names.contains d = true → info.tmpdft = some d) ∧
    (info.names.contains d = false → info.hasNext = true → info.tmpdft = some ("n")) ∧
    (info.names.contains d = false → info.tmpdft ≠ some info.nprev) := by
  by_cases hL : L ≤ 0
  · simp only [show_limit, if_pos hL] at hmem
    simp at hmem
  · simp only [show_limit, if_neg hL] at hmem
    exact showLimitGo_tmpdft entries L _ rets (ins.length + 1) (0, L) ins info d hmem hreq

/-- C4 witness: a window in which the requested default `"a"` is visible
and therefore kept. -/
theorem c4_witness :
    twoInfo ∈ (show_limit twoEntries 1 (some (Val.vstr ("a"))) Ret.name ["a"]).2.2 ∧
    twoInfo.dftReq = some ("a") ∧
    (twoInfo.names.contains ("a") = true → twoInfo.tmpdft = some ("a")) := by
  have h0 : (show_limit twoEntries 1 (some (Val.vstr ("a"))) Ret.name ["a"]).2.2 =
      [twoInfo] := by rfl
  have hmem : twoInfo ∈ (show_limit twoEntries 1 (some (Val.vstr ("a"))) Ret.name ["a"]).2.2 := by
    rw [h0]
    exact List.mem_singleton_self _
  exact ⟨hmem, by rfl,
    (c4_amended twoEntries 1 (some (Val.vstr ("a"))) Ret.name ["a"] twoInfo ("a")
      hmem (by rfl)).1⟩
